import Mathlib

/-!
Verification development for the Wildberries reporting module.

The Python sources are shallowly embedded: monetary values are modelled as
rationals (`ℚ`), Python dicts with `+=` accumulation as fold/`upsert`
operations on association lists, datetimes as microsecond counts in Moscow
civil time, and fallible fetches as `Option`-returning functions.
-/

namespace WbApi

/-! ## String helpers (Python `str.lower` and the `in` substring test) -/

/-- Lowercase one character the way Python's `str.lower` does on the
alphabets used by the document-type tags: ASCII `A`-`Z` and Cyrillic
`А`-`Я` plus `Ё`. -/
def pyLowerChar (c : Char) : Char :=
  if 65 ≤ c.toNat ∧ c.toNat ≤ 90 then Char.ofNat (c.toNat + 32)
  else if 0x410 ≤ c.toNat ∧ c.toNat ≤ 0x42F then Char.ofNat (c.toNat + 32)
  else if c.toNat = 0x401 then Char.ofNat 0x451
  else c

/-- Model of Python `s.lower()`. -/
def pyLower (s : String) : String :=
  String.mk (s.data.map pyLowerChar)

/-- Check that the needle starts the haystack. -/
def listStartsWith : List Char → List Char → Bool
  | [], _ => true
  | _ :: _, [] => false
  | n :: ns, h :: hs => (n == h) && listStartsWith ns hs

/-- Check that the needle occurs somewhere in the haystack. -/
def listHasSub (needle : List Char) : List Char → Bool
  | [] => needle.isEmpty
  | h :: hs => listStartsWith needle (h :: hs) || listHasSub needle hs

/-- Model of Python's `needle in hay` substring test. -/
def containsSub (hay needle : String) : Bool :=
  listHasSub needle.data hay.data

/-- Python truthiness of an optional integer key (`if not key: continue`
skips both a missing key and a zero key). -/
def natKeyFalsy : Option Nat → Bool
  | none => true
  | some n => n == 0

/-! ## Data model

Record shapes for the four input streams, translated from the dict keys the
Python aggregators read.  Absent dict keys default to `0` (the source uses
`row.get(k, 0)`), so numeric fields are plain rationals; identifier keys
read with a truthiness test are `Option Nat`. -/

/-- One order event from `/api/v1/supplier/orders` as the aggregators read
it: `nmId`, creation date string `date`, `totalPrice`, `discountPercent`,
`subject`. -/
structure OrderEvent where
  nmId : Option Nat
  date : String
  totalPrice : ℚ
  discountPercent : ℚ
  subject : String
deriving DecidableEq

/-- One row of the detail report (`reportDetailByPeriod`) with the fields
the aggregators read. -/
structure DetailRow where
  nm_id : Option Nat
  rr_dt : String
  doc_type_name : String
  quantity : ℚ
  retail_amount : ℚ
  retail_price_withdisc_rub : ℚ
  delivery_rub : ℚ
  rebill_logistic_cost : ℚ
  storage_fee : ℚ
  acceptance : ℚ
  penalty : ℚ
  ppvz_for_pay : ℚ
  ppvz_spp_prc : ℚ
  deduction : ℚ
  additional_payment : ℚ
  installment_cofinancing_amount : ℚ
  cashback_discount : ℚ
  cashback_amount : ℚ
  cashback_commission_change : ℚ
  subject_name : String
deriving DecidableEq

/-- One paid-storage row with the fields `fill_pnl_report` reads:
`date`, `nmId`, `warehousePrice`.  A missing or empty date string and a
missing `nmId` are modelled by `""` and `none`. -/
structure StorageChargeRow where
  date : String
  nmId : Option Nat
  warehousePrice : ℚ
deriving DecidableEq

/-! ## Financial Aggregator: per-product ledger (`fill_unit_economics_sheet`) -/

/-- Per-key accumulator of `fill_unit_economics_sheet` (the keys of the
`products[key]` defaultdict). -/
structure UnitMetrics where
  orders_rub : ℚ
  orders_pcs : ℚ
  sales_rub : ℚ
  sales_pcs : ℚ
  returns_rub : ℚ
  returns_pcs : ℚ
  logistics_forward_rub : ℚ
  logistics_reverse_rub : ℚ
  acceptance_rub : ℚ
  storage_rub : ℚ
  penalty_rub : ℚ
  to_pay_rub : ℚ
  total_retail_turnover_rub : ℚ
  spp_rub : ℚ
  adjustments_rub : ℚ
deriving DecidableEq

/-- Zero ledger (the defaultdict default). -/
def UnitMetrics.zero : UnitMetrics :=
  ⟨0, 0, 0, 0, 0, 0, 0, 0, 0, 0, 0, 0, 0, 0, 0⟩

/-- Componentwise addition of per-key accumulators. -/
def UnitMetrics.add (a b : UnitMetrics) : UnitMetrics :=
  ⟨a.orders_rub + b.orders_rub, a.orders_pcs + b.orders_pcs,
   a.sales_rub + b.sales_rub, a.sales_pcs + b.sales_pcs,
   a.returns_rub + b.returns_rub, a.returns_pcs + b.returns_pcs,
   a.logistics_forward_rub + b.logistics_forward_rub,
   a.logistics_reverse_rub + b.logistics_reverse_rub,
   a.acceptance_rub + b.acceptance_rub, a.storage_rub + b.storage_rub,
   a.penalty_rub + b.penalty_rub, a.to_pay_rub + b.to_pay_rub,
   a.total_retail_turnover_rub + b.total_retail_turnover_rub,
   a.spp_rub + b.spp_rub, a.adjustments_rub + b.adjustments_rub⟩

/-- Contribution of one order to the per-product ledger of key `key`:
`products[key]["orders_rub"] += totalPrice * (1 - discountPercent / 100)`
and `products[key]["orders_pcs"] += 1`, skipping falsy `nmId`. -/
def orderContrib (key : Nat) (o : OrderEvent) : UnitMetrics :=
  if natKeyFalsy o.nmId then UnitMetrics.zero
  else if o.nmId = some key then
    { UnitMetrics.zero with
      orders_rub := o.totalPrice * (1 - o.discountPercent / 100)
      orders_pcs := 1 }
  else UnitMetrics.zero

/-- Contribution of one detail row to the per-product ledger of key `key`,
following the loop body of `fill_unit_economics_sheet`: the document type is
lowercased, a `продажа` match feeds the sales totals, otherwise (`elif`) a
`возврат` match feeds the returns totals; the remaining fields accumulate
unconditionally. -/
def detailContrib (key : Nat) (r : DetailRow) : UnitMetrics :=
  if natKeyFalsy r.nm_id then UnitMetrics.zero
  else if r.nm_id = some key then
    let doc_type := pyLower r.doc_type_name
    let isSale := containsSub doc_type "продажа"
    let isReturn := containsSub doc_type "возврат"
    { orders_rub := 0
      orders_pcs := 0
      sales_rub := if isSale then r.retail_amount else 0
      sales_pcs := if isSale then r.quantity else 0
      returns_rub := if ¬isSale ∧ isReturn then r.retail_amount else 0
      returns_pcs := if ¬isSale ∧ isReturn then r.quantity else 0
      logistics_forward_rub := r.delivery_rub - r.rebill_logistic_cost
      logistics_reverse_rub := r.rebill_logistic_cost
      acceptance_rub := r.acceptance
      storage_rub := r.storage_fee
      penalty_rub := r.penalty
      to_pay_rub := r.ppvz_for_pay
      total_retail_turnover_rub := r.retail_amount
      spp_rub := r.retail_amount * (r.ppvz_spp_prc / 100)
      adjustments_rub := r.additional_payment + r.cashback_amount +
        r.cashback_discount + r.cashback_commission_change }
  else UnitMetrics.zero

/-- Per-product ledger of `fill_unit_economics_sheet`: fold the order loop
and then the detail-row loop into the accumulator of key `key`. -/
def aggUnit (key : Nat) (orders : List OrderEvent) (details : List DetailRow) :
    UnitMetrics :=
  details.foldl (fun acc r => acc.add (detailContrib key r))
    (orders.foldl (fun acc o => acc.add (orderContrib key o)) UnitMetrics.zero)

/-- Derived ad-spend ratio of `fill_unit_economics_sheet`:
`(advertising_cost / p["sales_rub"]) if p["sales_rub"] > 0 else 0`. -/
def drrPercent (advertisingCost : ℚ) (m : UnitMetrics) : ℚ :=
  if m.sales_rub > 0 then advertisingCost / m.sales_rub else 0

/-- Derived buyout ratio of `fill_unit_economics_sheet`:
`(p["sales_pcs"] / p["orders_pcs"]) if p["orders_pcs"] > 0 else 0`. -/
def buyoutPercent (m : UnitMetrics) : ℚ :=
  if m.orders_pcs > 0 then m.sales_pcs / m.orders_pcs else 0

/-! ## Financial Aggregator: per-day ledger (`fill_pnl_weekly_sheet`) -/

/-- Per-day accumulator of `fill_pnl_weekly_sheet` (the keys of the
`daily_aggr[date_str]` dict). -/
structure DailyMetrics where
  orders_count : ℚ
  orders : ℚ
  sales_quantity : ℚ
  sales_before_spp : ℚ
  returns : ℚ
  advertising : ℚ
  forward_logistics : ℚ
  reverse_logistics : ℚ
  storage : ℚ
  acceptance : ℚ
  adjustments : ℚ
  penalties : ℚ
  to_pay : ℚ
  total_to_pay : ℚ
deriving DecidableEq

/-- Zero per-day ledger. -/
def DailyMetrics.zero : DailyMetrics :=
  ⟨0, 0, 0, 0, 0, 0, 0, 0, 0, 0, 0, 0, 0, 0⟩

/-- Componentwise addition of per-day accumulators. -/
def DailyMetrics.add (a b : DailyMetrics) : DailyMetrics :=
  ⟨a.orders_count + b.orders_count, a.orders + b.orders,
   a.sales_quantity + b.sales_quantity, a.sales_before_spp + b.sales_before_spp,
   a.returns + b.returns, a.advertising + b.advertising,
   a.forward_logistics + b.forward_logistics,
   a.reverse_logistics + b.reverse_logistics,
   a.storage + b.storage, a.acceptance + b.acceptance,
   a.adjustments + b.adjustments, a.penalties + b.penalties,
   a.to_pay + b.to_pay, a.total_to_pay + b.total_to_pay⟩

/-- Contribution of one order to day `key` in `fill_pnl_weekly_sheet`:
keyed by `row.get("date", "")[:10]`, skipped when the key is empty. -/
def dailyOrderContrib (key : String) (o : OrderEvent) : DailyMetrics :=
  if o.date.take 10 = "" then DailyMetrics.zero
  else if o.date.take 10 = key then
    { DailyMetrics.zero with
      orders_count := 1
      orders := o.totalPrice * (1 - o.discountPercent / 100) }
  else DailyMetrics.zero

/-- Contribution of one detail row to day `key` in `fill_pnl_weekly_sheet`:
keyed by `row.get("rr_dt", "")[:10]`; `is_sale` and `is_return` are two
independent substring tests (not an `elif` pair). -/
def dailyDetailContrib (key : String) (r : DetailRow) : DailyMetrics :=
  if r.rr_dt.take 10 = "" then DailyMetrics.zero
  else if r.rr_dt.take 10 = key then
    let doc_type := pyLower r.doc_type_name
    let is_sale := containsSub doc_type "продажа"
    let is_return := containsSub doc_type "возврат"
    let returns := if is_return then r.retail_amount * r.quantity else 0
    let adjustments := r.additional_payment + r.cashback_discount +
      r.cashback_amount + r.cashback_commission_change
    { orders_count := 0
      orders := 0
      sales_quantity := if is_sale then r.quantity else 0
      sales_before_spp := if is_sale then r.retail_amount * r.quantity else 0
      returns := returns
      advertising := r.deduction
      forward_logistics := r.delivery_rub - r.rebill_logistic_cost
      reverse_logistics := r.rebill_logistic_cost
      storage := r.storage_fee
      acceptance := r.acceptance
      adjustments := adjustments
      penalties := r.penalty
      to_pay := r.ppvz_for_pay
      total_to_pay := r.ppvz_for_pay - adjustments - r.penalty -
        r.delivery_rub - r.storage_fee - r.acceptance - r.deduction - returns }
  else DailyMetrics.zero

/-- Per-day ledger of `fill_pnl_weekly_sheet`: fold the order loop and the
detail-row loop into the accumulator of day `key`. -/
def aggDaily (key : String) (orders : List OrderEvent) (details : List DetailRow) :
    DailyMetrics :=
  details.foldl (fun acc r => acc.add (dailyDetailContrib key r))
    (orders.foldl (fun acc o => acc.add (dailyOrderContrib key o)) DailyMetrics.zero)

/-! ## Cursor-paginated orders fetch: window bounds and creation-date filter

Datetimes are modelled as microsecond counts in Moscow civil time (the code
localizes every naive datetime to `Europe/Moscow`, so civil-time comparison
is linear order on these counts).  Python's `datetime.replace` changes only
the named fields, so `replace(hour=.., minute=.., second=..)` keeps the
original `microsecond` field. -/

/-- Microseconds per second. -/
def microsPerSec : ℕ := 1000000

/-- Microseconds per day. -/
def microsPerDay : ℕ := 86400 * microsPerSec

/-- Midnight of the civil day containing instant `t`. -/
def dayStart (t : ℕ) : ℕ := (t / microsPerDay) * microsPerDay

/-- Microsecond field of instant `t` (Python `dt.microsecond`). -/
def microField (t : ℕ) : ℕ := t % microsPerSec

/-- Model of `dt.replace(hour=h, minute=m, second=s)`: keep the civil day
and the microsecond field, replace hour, minute and second. -/
def replaceHMS (t h m s : ℕ) : ℕ :=
  dayStart t + (h * 3600 + m * 60 + s) * microsPerSec + microField t

/-- Lower bound of `get_wb_orders`:
`start_dt_moscow.replace(hour=0, minute=0, second=0)`. -/
def ordersStartBound (startDate : ℕ) : ℕ := replaceHMS startDate 0 0 0

/-- Upper bound of `get_wb_orders`:
`end_dt_moscow.replace(hour=23, minute=59, second=59)`. -/
def ordersEndBound (endDate : ℕ) : ℕ := replaceHMS endDate 23 59 59

/-- One raw record of the orders feed as `_is_within_date_range` reads it:
`date` is the parsed creation timestamp (`none` models a missing or
unparseable `date` string, which the function treats as out of range). -/
structure OrderRecord where
  date : Option ℕ
  lastChangeDate : Option ℕ
  nmId : Option Nat
deriving DecidableEq

/-- Model of `_is_within_date_range`: keep a record exactly when its parsed
creation timestamp satisfies `start_dt_moscow <= d <= end_dt_moscow`. -/
def isWithinDateRange (r : OrderRecord) (startB endB : ℕ) : Bool :=
  match r.date with
  | none => false
  | some d => decide (startB ≤ d ∧ d ≤ endB)

/-- Final filtering step of `get_wb_orders`: the full fetched raw stream is
filtered by creation date against the two bounds built from the caller's
`start_date` and `end_date`. -/
def getWbOrdersFilter (raw : List OrderRecord) (startDate endDate : ℕ) :
    List OrderRecord :=
  raw.filter (fun r => isWithinDateRange r (ordersStartBound startDate) (ordersEndBound endDate))

/-- Window predicate written from the spec's words (for the refinement
comparison of claim C3): creation timestamp inside
`[windowStart 00:00, windowEnd 23:59:59.999999]`. -/
def specOrdersWindow (startDate endDate d : ℕ) : Prop :=
  dayStart startDate ≤ d ∧ d ≤ dayStart endDate + 86399 * microsPerSec + 999999

/-! ## Dict accumulation (`defaultdict(float)` keyed maps) -/

/-- Model of `d[k] += v` on a `defaultdict(float)` represented as an
insertion-ordered association list. -/
def upsert {K : Type} [DecidableEq K] (k : K) (v : ℚ) :
    List (K × ℚ) → List (K × ℚ)
  | [] => [(k, v)]
  | (k', v') :: rest => if k' = k then (k', v' + v) :: rest
      else (k', v') :: upsert k v rest

/-- Value stored under key `k` (the defaultdict default is `0`). -/
def dictVal {K : Type} [DecidableEq K] (l : List (K × ℚ)) (k : K) : ℚ :=
  match l with
  | [] => 0
  | (k', v) :: rest => if k' = k then v else dictVal rest k

/-- Storage-cost aggregation of `fill_pnl_report`: when the storage fetch
succeeded, accumulate `warehousePrice` under `(date, nmId)` for rows whose
`date` and `nmId` are truthy; when it failed (`None`), the dict stays
empty. -/
def storageCostsAgg (storageData : Option (List StorageChargeRow)) :
    List ((String × Nat) × ℚ) :=
  match storageData with
  | none => []
  | some rows =>
    rows.foldl (fun acc r =>
      match r.nmId with
      | none => acc
      | some n =>
        if r.date ≠ "" ∧ n ≠ 0 then upsert (r.date, n) r.warehousePrice acc
        else acc) []

/-! ## Chunked Range Fetcher (`get_wb_paid_storage_report`,
`get_wb_weekly_report`)

Days are modelled as natural-number day indices; a sub-window is a closed
day interval.  The loop `while current_start <= end: chunk_end =
min(end, current_start + step); ...; current_start = chunk_end + 1` is
translated as a recursion on the remaining length.  `step` is `7` for paid
storage (8-day windows) and `6` for the detail report (7-day windows). -/

/-- Sub-window list produced by the chunking loop. -/
def chunkList (step s e : ℕ) : List (ℕ × ℕ) :=
  if s ≤ e then
    (s, min e (s + step)) :: chunkList step (min e (s + step) + 1) e
  else []
termination_by e + 1 - s
decreasing_by
  have h1 : s ≤ min e (s + step) := le_min (by omega) (by omega)
  omega

/-- Chunked range fetch: fetch each sub-window in order, abort with `none`
as soon as one sub-window fetch fails, otherwise concatenate. -/
def chunkedFetch {α : Type} (step : ℕ) (fetch : ℕ → ℕ → Option (List α))
    (s e : ℕ) : Option (List α) :=
  if s ≤ e then
    match fetch s (min e (s + step)) with
    | none => none
    | some rows => (chunkedFetch step fetch (min e (s + step) + 1) e).map (rows ++ ·)
  else some []
termination_by e + 1 - s
decreasing_by
  have h1 : s ≤ min e (s + step) := le_min (by omega) (by omega)
  omega

/-- Records a single hypothetical unchunked fetch over the closed day
interval `[a, b]` would return, given the per-day record feed: the
concatenation of the per-day records. -/
def windowRecords {α : Type} (feed : ℕ → List α) (a b : ℕ) : List α :=
  (List.range' a (b + 1 - a)).flatMap feed

/-- Model of `get_wb_paid_storage_report`: 8-day sub-windows
(`chunk_end = min(end_date, current_start + timedelta(days=7))`). -/
def getWbPaidStorageReport (fetch : ℕ → ℕ → Option (List StorageChargeRow))
    (s e : ℕ) : Option (List StorageChargeRow) :=
  chunkedFetch 7 fetch s e

/-- Model of `get_wb_weekly_report`: 7-day sub-windows
(`chunk_end = min(end_date, current_start + timedelta(days=6))`). -/
def getWbWeeklyReport (fetch : ℕ → ℕ → Option (List DetailRow)) (s e : ℕ) :
    Option (List DetailRow) :=
  chunkedFetch 6 fetch s e

/-! ## Async Job Poller: paid storage chunk (`_get_single_paid_storage_chunk`)

The environment records what the provider would answer: the task-creation
response, the sequence of status-poll outcomes (`none` models a non-200
poll response or an exception, which the loop ignores and keeps waiting),
and the download outcome (`none` models a non-200 download response).  The
loop polls at most `300 / 5 = 60` times. -/

/-- Environment of one paid-storage chunk fetch. -/
structure StorageChunkEnv where
  createStatus : ℕ
  createTaskId : Option String
  polls : List (Option String)
  download : Option (List StorageChargeRow)

/-- Polling loop of `_get_single_paid_storage_chunk`: `done` triggers the
download (whose failure yields `None`), any of `error`, `canceled`,
`purged` yields `None`, anything else keeps waiting; an exhausted poll
budget is the timeout and yields `None`. -/
def storagePollLoop (download : Option (List StorageChargeRow)) :
    List (Option String) → Option (List StorageChargeRow)
  | [] => none
  | p :: rest =>
    match p with
    | some s =>
      if s = "done" then download
      else if s = "error" ∨ s = "canceled" ∨ s = "purged" then none
      else storagePollLoop download rest
    | none => storagePollLoop download rest

/-- Model of `_get_single_paid_storage_chunk`: a failed task creation or a
missing `taskId` yields `None`; otherwise run the polling loop within the
300-second ceiling (60 polls at 5-second intervals). -/
def getSinglePaidStorageChunk (env : StorageChunkEnv) :
    Option (List StorageChargeRow) :=
  if env.createStatus ≠ 200 then none
  else
    match env.createTaskId with
    | none => none
    | some _ => storagePollLoop env.download (env.polls.take 60)

/-! ## Async Job Poller: acceptance report (`get_wb_acceptance_report`)

Unlike the paid-storage chunk, every failure path of
`get_wb_acceptance_report` executes `return []`: the function's return type
carries no failure sentinel at all. -/

/-- One acceptance-report record with the fields the filter reads:
`shkCreateDate` as a parsed day index (`none` models a missing or
unparseable date). -/
structure AcceptanceRow where
  shkCreateDate : Option ℕ
  total : ℚ
deriving DecidableEq

/-- Environment of one acceptance-report fetch. -/
structure AcceptanceEnv where
  createStatus : ℕ
  createTaskId : Option String
  polls : List (Option String)
  download : Option (List AcceptanceRow)

/-- Download-and-filter step of `get_wb_acceptance_report`: a failed
download returns `[]`; a successful one is filtered to records whose
`shkCreateDate` day lies in `[startDay, endDay]`. -/
def acceptanceDownload (download : Option (List AcceptanceRow))
    (startDay endDay : ℕ) : List AcceptanceRow :=
  match download with
  | none => []
  | some rows =>
    rows.filter (fun r =>
      match r.shkCreateDate with
      | none => false
      | some d => decide (startDay ≤ d ∧ d ≤ endDay))

/-- Polling loop of `get_wb_acceptance_report`: `done` breaks into the
download step, `error` returns `[]`, anything else keeps waiting; the
`while ... else` timeout branch returns `[]`. -/
def acceptancePollLoop (download : Option (List AcceptanceRow))
    (startDay endDay : ℕ) : List (Option String) → List AcceptanceRow
  | [] => []
  | p :: rest =>
    match p with
    | some s =>
      if s = "done" then acceptanceDownload download startDay endDay
      else if s = "error" then []
      else acceptancePollLoop download startDay endDay rest
    | none => acceptancePollLoop download startDay endDay rest

/-- Model of `get_wb_acceptance_report`: a failed task creation or missing
`taskId` returns `[]`; otherwise run the polling loop within the
300-second ceiling (60 polls at 5-second intervals). -/
def getWbAcceptanceReport (env : AcceptanceEnv) (startDay endDay : ℕ) :
    List AcceptanceRow :=
  if env.createStatus ≠ 200 then []
  else
    match env.createTaskId with
    | none => []
    | some _ => acceptancePollLoop env.download startDay endDay (env.polls.take 60)

/-! ## Advertising statistics (`wb_advert.py`)

The nested per-campaign / per-day / per-app / per-product statistics shape
of the `fullstats` payload. -/

/-- Per-product entry of a fullstats day/app block: `nmId` and `sum`. -/
structure NmStat where
  nmId : Option Nat
  sum : ℚ
deriving DecidableEq

/-- Per-app entry of a fullstats day block. -/
structure AppStat where
  nms : List NmStat
deriving DecidableEq

/-- Per-day entry of a fullstats campaign block; an empty `date` string
models a missing date (Python truthiness). -/
structure DayStat where
  date : String
  apps : List AppStat
deriving DecidableEq

/-- One campaign entry of the fullstats payload. -/
structure CampaignStat where
  days : List DayStat
deriving DecidableEq

/-- One HTTP response of the advertising API as `_make_advert_request` and
`_get_fullstats_data` read it: status, body text, and the parsed payload
(meaningful only for a 200 response). -/
structure HttpResp where
  status : ℕ
  body : String
  payload : List CampaignStat
deriving DecidableEq

/-- Model of `_make_advert_request` over the per-attempt outcomes (`none`
models a network exception, which is retried): a 200/204 response is
returned; a 429 or 5xx response is retried; any other response is an
immediate failure (`None`); an exhausted attempt budget is a failure.  The
caller's `for attempt in range(MAX_RETRIES)` budget is modelled by passing
`attempts.take 3`. -/
def makeAdvertRequest : List (Option HttpResp) → Option HttpResp
  | [] => none
  | some r :: rest =>
    if r.status = 200 ∨ r.status = 204 then some r
    else if r.status = 429 ∨ 500 ≤ r.status then makeAdvertRequest rest
    else none
  | none :: rest => makeAdvertRequest rest

/-- Per-batch step of `_get_fullstats_data`: a 200 response appends its
payload; a 400 response is inspected for the `no statistics` body but
neither branch appends or aborts; every other outcome (including the `None`
returned by `_make_advert_request` for all 4xx responses) leaves the
accumulator unchanged and the loop continues. -/
def processFullstatsBatch (acc : List CampaignStat) (resp : Option HttpResp) :
    List CampaignStat :=
  match resp with
  | some r =>
    if r.status = 200 then acc ++ r.payload
    else if r.status = 400 then
      if containsSub r.body "there are no statistics for this advertising period" then acc
      else acc
    else acc
  | none => acc

/-- Model of `_get_fullstats_data` over the list of batches, each batch
given by its per-attempt response outcomes: every batch goes through
`_make_advert_request` (3 attempts) and then the 200/400 handling; the
collected statistics are returned unconditionally — the function has no
failure channel. -/
def getFullstatsData (batches : List (List (Option HttpResp))) :
    List CampaignStat :=
  batches.foldl
    (fun acc attempts => processFullstatsBatch acc (makeAdvertRequest (attempts.take 3))) []

/-! ## Aggregated advertising costs (`get_aggregated_ad_costs`) -/

/-- Environment of the advertising-spend entry point: the relevant campaign
ids that the resolution pipeline (stages A–C) would produce, and the
fullstats payload the statistics stage would collect. -/
structure AdvertEnv where
  relevantIds : List ℕ
  stats : List CampaignStat

/-- Date key of a fullstats day: `date_str_raw.split("T")[0]`. -/
def dateKey (s : String) : String :=
  String.mk (s.data.takeWhile (· ≠ 'T'))

/-- Flattened, filtered contribution list of the parsing loop of
`get_aggregated_ad_costs`: iterate campaigns → days → apps → nms, skip a
day with a falsy date (`if not date_str_raw: continue`) and a product with
a falsy `nmId` or one outside the caller's target set
(`if not nm_id or nm_id not in target_nm_ids: continue`). -/
def adContribs (targets : List ℕ) (stats : List CampaignStat) :
    List ((String × ℕ) × ℚ) :=
  stats.flatMap (fun c => c.days.flatMap (fun d =>
    if d.date = "" then []
    else d.apps.flatMap (fun a => a.nms.flatMap (fun nm =>
      match nm.nmId with
      | none => []
      | some i =>
        if i = 0 ∨ i ∉ targets then []
        else [((dateKey d.date, i), nm.sum)]))))

/-- Accumulation `ad_costs_agg[key] += cost` over a stream of flattened
spend contributions, in stream order. -/
def adCostsAccum (rows : List ((String × ℕ) × ℚ)) : List ((String × ℕ) × ℚ) :=
  rows.foldl (fun acc kv => upsert kv.1 kv.2 acc) []

/-- Parsing loop of `get_aggregated_ad_costs`: accumulate the flattened,
filtered contributions in loop order. -/
def parseAdStats (targets : List ℕ) (stats : List CampaignStat) :
    List ((String × ℕ) × ℚ) :=
  adCostsAccum (adContribs targets stats)

/-- Per-row value a storage row contributes to key `k` in the
storage-cost aggregation of `fill_pnl_report`. -/
def storageContribVal (k : String × Nat) (r : StorageChargeRow) : ℚ :=
  match r.nmId with
  | none => 0
  | some n =>
    if r.date ≠ "" ∧ n ≠ 0 then (if (r.date, n) = k then r.warehousePrice else 0)
    else 0

/-- Model of `get_aggregated_ad_costs`: the result dict together with the
trace of fetch stages performed (campaign discovery, campaign metadata,
statistics).  An empty target set returns immediately; an empty relevant
campaign set returns after discovery; an empty statistics payload returns
without parsing. -/
def getAggregatedAdCosts (targets : List ℕ) (env : AdvertEnv) :
    List ((String × ℕ) × ℚ) × List String :=
  if targets.isEmpty then ([], [])
  else if env.relevantIds.isEmpty then
    ([], ["promotion_count", "promotion_adverts"])
  else if env.stats.isEmpty then
    ([], ["promotion_count", "promotion_adverts", "fullstats"])
  else
    (parseAdStats targets env.stats,
     ["promotion_count", "promotion_adverts", "fullstats"])

/-! ## Report Orchestrator (`fill_pnl_report`) -/

/-- Data handed to the sheet-filling collaborators when the report
succeeds. -/
structure ReportBundle where
  reportData : List DetailRow
  ordersData : List OrderEvent
  adCosts : List ((String × Nat) × ℚ)
  storageCosts : List ((String × Nat) × ℚ)
deriving DecidableEq

/-- Target product-id set derived from the fetched orders:
`{order['nmId'] for order in (orders_data or []) if 'nmId' in order}`
(membership is what matters downstream, so the set is modelled as the list
of present `nmId` values). -/
def targetNmIds (ordersData : Option (List OrderEvent)) : List ℕ :=
  (ordersData.getD []).filterMap (·.nmId)

/-- Model of the data-assembly core of `fill_pnl_report`: the advertising
fetch runs on the ids derived from `orders_data or []`, the storage dict is
built from the storage fetch outcome (empty when that fetch failed), and a
failed detail-report or orders fetch raises, making the whole report fail
(`none`). -/
def fillPnlReport (reportData : Option (List DetailRow))
    (ordersData : Option (List OrderEvent))
    (storageData : Option (List StorageChargeRow))
    (adFetch : List ℕ → List ((String × Nat) × ℚ)) : Option ReportBundle :=
  let adCosts := adFetch (targetNmIds ordersData)
  let storageCosts := storageCostsAgg storageData
  match reportData, ordersData with
  | some rd, some od => some ⟨rd, od, adCosts, storageCosts⟩
  | _, _ => none

/-! ## Concrete inputs used by the claim scenarios -/

/-- Order of the end-to-end scenario: productId 10, creation timestamp on
2024-01-05 (in-window), gross price 1000, discount 10 %. -/
def c1Order : OrderEvent :=
  ⟨some 10, "2024-01-05T12:00:00", 1000, 10, "товар"⟩

/-- Sale row of the end-to-end scenario: productId 10, date in-window,
document type `продажа`, quantity 1, retail amount 900, amount payable to
seller 800, every other monetary field zero. -/
def c1Sale : DetailRow :=
  ⟨some 10, "2024-01-05T00:00:00", "продажа", 1, 900, 0, 0, 0, 0, 0, 0,
   800, 0, 0, 0, 0, 0, 0, 0, "товар"⟩

/-- Raw order record created at 23:59:59.999999 of the window's last day
(day 0), whose change timestamp is inside the window. -/
def c3Record : OrderRecord :=
  ⟨some (86399 * microsPerSec + 999999), some 0, some 10⟩

/-- Detail row whose document type contains both the sale and the return
substring. -/
def c4BothRow : DetailRow :=
  ⟨some 10, "2024-01-05T00:00:00", "возврат продажа", 1, 100, 0, 0, 0, 0, 0,
   0, 0, 0, 0, 0, 0, 0, 0, 0, "товар"⟩

/-- Warranty-return detail row (`Возврат по гарантии`). -/
def c4ReturnRow : DetailRow :=
  ⟨some 10, "2024-01-05T00:00:00", "Возврат по гарантии", 1, 100, 0, 0, 0,
   0, 0, 0, 0, 0, 0, 0, 0, 0, 0, 0, "товар"⟩

/-- Sale row with a negative retail amount, making the accumulated sales
total negative. -/
def c5NegRow : DetailRow :=
  ⟨some 10, "2024-01-05T00:00:00", "продажа", 1, -100, 0, 0, 0, 0, 0, 0, 0,
   0, 0, 0, 0, 0, 0, 0, "товар"⟩

/-- Acceptance-report environment whose job reports status `error` even
though the download artifact would contain a record. -/
def c6ErrorEnv : AcceptanceEnv :=
  ⟨200, some "task-1", [some "error"], some [⟨some 3, 100⟩]⟩

/-- Acceptance-report environment whose job completes with an empty
artifact. -/
def c6EmptyDoneEnv : AcceptanceEnv :=
  ⟨200, some "task-1", [some "done"], some []⟩

/-- Advertising response: 403 client error. -/
def c8Resp403 : HttpResp := ⟨403, "access denied", []⟩

/-- Advertising response: 400 with the `no statistics` body. -/
def c8Resp400 : HttpResp :=
  ⟨400, "there are no statistics for this advertising period", []⟩

/-- Advertising response: 200 carrying one campaign block. -/
def c8RespOk : HttpResp := ⟨200, "", [⟨[]⟩]⟩

/-! ## Helper lemmas -/

theorem unitAddComm (a b : UnitMetrics) : a.add b = b.add a := by
  simp [UnitMetrics.add, add_comm]

theorem unitAddAssoc (a b c : UnitMetrics) :
    (a.add b).add c = a.add (b.add c) := by
  simp [UnitMetrics.add, add_assoc]

theorem dailyAddComm (a b : DailyMetrics) : a.add b = b.add a := by
  simp [DailyMetrics.add, add_comm]

theorem dailyAddAssoc (a b c : DailyMetrics) :
    (a.add b).add c = a.add (b.add c) := by
  simp [DailyMetrics.add, add_assoc]

theorem foldl_add_perm {α M : Type} (add : M → M → M)
    (hassoc : ∀ a b c, add (add a b) c = add a (add b c))
    (hcomm : ∀ a b, add a b = add b a)
    (f : α → M) {l l' : List α} (h : l.Perm l') :
    ∀ init : M,
      l.foldl (fun acc x => add acc (f x)) init
        = l'.foldl (fun acc x => add acc (f x)) init := by
  induction h with
  | nil => intro init; rfl
  | cons x _ ih =>
    intro init
    simp only [List.foldl_cons]
    exact ih _
  | swap x y l =>
    intro init
    simp only [List.foldl_cons]
    rw [hassoc, hcomm (f y) (f x), ← hassoc]
  | trans _ _ ih1 ih2 =>
    intro init
    exact (ih1 init).trans (ih2 init)

theorem dictVal_upsert {K : Type} [DecidableEq K] (k : K) (v : ℚ)
    (l : List (K × ℚ)) (k' : K) :
    dictVal (upsert k v l) k' = dictVal l k' + if k = k' then v else 0 := by
  induction l with
  | nil =>
    simp only [upsert, dictVal]
    split <;> simp
  | cons head rest ih =>
    obtain ⟨a, w⟩ := head
    by_cases hak : a = k
    · subst hak
      simp only [upsert, if_pos rfl, dictVal]
      by_cases hk' : a = k'
      · simp [hk']
      · simp [hk']
    · simp only [upsert, if_neg hak, dictVal]
      by_cases hk' : a = k'
      · have hkk' : ¬ k = k' := fun h => hak (hk'.trans h.symm)
        simp [hk', hkk']
      · simp [hk', ih]

theorem dictVal_upsertFold {K : Type} [DecidableEq K]
    (rows : List (K × ℚ)) :
    ∀ (init : List (K × ℚ)) (k : K),
      dictVal (rows.foldl (fun acc kv => upsert kv.1 kv.2 acc) init) k
        = dictVal init k + (rows.map (fun kv => if kv.1 = k then kv.2 else 0)).sum := by
  induction rows with
  | nil => intro init k; simp
  | cons kv rest ih =>
    intro init k
    simp only [List.foldl_cons, List.map_cons, List.sum_cons]
    rw [ih, dictVal_upsert]
    ring_nf

theorem dictVal_adCostsAccum (rows : List ((String × ℕ) × ℚ)) (k : String × ℕ) :
    dictVal (adCostsAccum rows) k
      = (rows.map (fun kv => if kv.1 = k then kv.2 else 0)).sum := by
  rw [adCostsAccum, dictVal_upsertFold]
  simp [dictVal]

theorem dictVal_storageFold (rows : List StorageChargeRow) :
    ∀ (init : List ((String × Nat) × ℚ)) (k : String × Nat),
      dictVal (rows.foldl (fun acc r =>
        match r.nmId with
        | none => acc
        | some n =>
          if r.date ≠ "" ∧ n ≠ 0 then upsert (r.date, n) r.warehousePrice acc
          else acc) init) k
        = dictVal init k + (rows.map (storageContribVal k)).sum := by
  induction rows with
  | nil => intro init k; simp
  | cons r rest ih =>
    intro init k
    simp only [List.foldl_cons, List.map_cons, List.sum_cons]
    rw [ih]
    cases hnm : r.nmId with
    | none =>
      dsimp only
      simp only [storageContribVal, hnm]
      ring
    | some n =>
      dsimp only
      by_cases hq : r.date ≠ "" ∧ n ≠ 0
      · rw [if_pos hq, dictVal_upsert]
        simp only [storageContribVal, hnm, if_pos hq]
        ring
      · rw [if_neg hq]
        simp only [storageContribVal, hnm, if_neg hq]
        ring

theorem dictVal_storageCostsAgg (rows : List StorageChargeRow) (k : String × Nat) :
    dictVal (storageCostsAgg (some rows)) k = (rows.map (storageContribVal k)).sum := by
  rw [storageCostsAgg, dictVal_storageFold]
  simp [dictVal]

/-! ## Claim theorems -/

/-- C1: on the single-order, single-sale-row scenario (productId 10,
gross price 1000, discount 10 %; one `продажа` row with quantity 1, retail
amount 900, payable 800, all other monetary fields zero) the aggregators
produce orders-amount 900, sales-amount 900, sales-quantity 1 and
net-payable 800 for the scenario's key, in both the per-day ledger of
`fill_pnl_weekly_sheet` and the per-product ledger of
`fill_unit_economics_sheet`. -/
theorem claim_C1_end_to_end_scenario :
    (aggDaily "2024-01-05" [c1Order] [c1Sale]).orders = 900
    ∧ (aggDaily "2024-01-05" [c1Order] [c1Sale]).sales_before_spp = 900
    ∧ (aggDaily "2024-01-05" [c1Order] [c1Sale]).sales_quantity = 1
    ∧ (aggDaily "2024-01-05" [c1Order] [c1Sale]).total_to_pay = 800
    ∧ (aggUnit 10 [c1Order] [c1Sale]).orders_rub = 900
    ∧ (aggUnit 10 [c1Order] [c1Sale]).sales_rub = 900
    ∧ (aggUnit 10 [c1Order] [c1Sale]).sales_pcs = 1
    ∧ (aggUnit 10 [c1Order] [c1Sale]).to_pay_rub = 800 := by
  refine ⟨?_, ?_, ?_, ?_, ?_, ?_, ?_, ?_⟩ <;>
    simp +decide [aggDaily, aggUnit, dailyOrderContrib, dailyDetailContrib,
      orderContrib, detailContrib, DailyMetrics.add, DailyMetrics.zero,
      UnitMetrics.add, UnitMetrics.zero, natKeyFalsy, c1Order, c1Sale] <;>
    norm_num

/-- C2: the per-key accumulations of the Financial Aggregator are invariant
under permutation of each of the four input streams: the per-product and
per-day ledgers under permutation of the order and detail-row streams, and
the keyed storage and advertising dicts under permutation of their charge /
spend contribution streams. -/
theorem claim_C2_aggregation_perm_invariant
    (orders orders' : List OrderEvent) (details details' : List DetailRow)
    (storage storage' : List StorageChargeRow)
    (adRows adRows' : List ((String × ℕ) × ℚ))
    (ho : orders.Perm orders') (hd : details.Perm details')
    (hs : storage.Perm storage') (ha : adRows.Perm adRows') :
    (∀ key : ℕ, aggUnit key orders details = aggUnit key orders' details')
    ∧ (∀ day : String, aggDaily day orders details = aggDaily day orders' details')
    ∧ (∀ k, dictVal (storageCostsAgg (some storage)) k
          = dictVal (storageCostsAgg (some storage')) k)
    ∧ (∀ k, dictVal (adCostsAccum adRows) k = dictVal (adCostsAccum adRows') k) := by
  refine ⟨?_, ?_, ?_, ?_⟩
  · intro key
    unfold aggUnit
    rw [foldl_add_perm UnitMetrics.add unitAddAssoc unitAddComm
      (orderContrib key) ho UnitMetrics.zero]
    exact foldl_add_perm UnitMetrics.add unitAddAssoc unitAddComm
      (detailContrib key) hd _
  · intro day
    unfold aggDaily
    rw [foldl_add_perm DailyMetrics.add dailyAddAssoc dailyAddComm
      (dailyOrderContrib day) ho DailyMetrics.zero]
    exact foldl_add_perm DailyMetrics.add dailyAddAssoc dailyAddComm
      (dailyDetailContrib day) hd _
  · intro k
    rw [dictVal_storageCostsAgg, dictVal_storageCostsAgg]
    exact ((hs.map (storageContribVal k)).sum_eq)
  · intro k
    rw [dictVal_adCostsAccum, dictVal_adCostsAccum]
    exact ((ha.map (fun kv => if kv.1 = k then kv.2 else 0)).sum_eq)

/-- Witness for C2: a concrete permutation of concrete streams, with every
per-key total evaluated. -/
theorem claim_C2_witness :
    (aggUnit 10 [c1Order] [c1Sale, c4ReturnRow]
      = aggUnit 10 [c1Order] [c4ReturnRow, c1Sale])
    ∧ (aggUnit 10 [c1Order] [c1Sale, c4ReturnRow]).sales_rub = 900 := by
  have h := claim_C2_aggregation_perm_invariant
    [c1Order] [c1Order] [c1Sale, c4ReturnRow] [c4ReturnRow, c1Sale]
    [] [] [] []
    (List.Perm.refl _) (List.Perm.swap _ _ _) (List.Perm.refl _) (List.Perm.refl _)
  refine ⟨h.1 10, ?_⟩
  simp +decide [aggUnit, orderContrib, detailContrib, UnitMetrics.add,
    UnitMetrics.zero, natKeyFalsy, c1Order, c1Sale, c4ReturnRow]

/-- C3 counterexample: for the one-day window of day 0 given as a midnight
datetime (microsecond field 0), a record created at 23:59:59.999999 of that
day lies inside the interval the claim states
(`[windowStart 00:00, windowEnd 23:59:59.999999]`) yet the fetch filter
drops it, because `replace(hour=23, minute=59, second=59)` keeps the
caller's microsecond field and so the code's upper bound is
23:59:59.000000. -/
theorem claim_C3_counterexample :
    specOrdersWindow 0 0 (86399 * microsPerSec + 999999)
    ∧ getWbOrdersFilter [c3Record] 0 0 = [] := by
  constructor
  · unfold specOrdersWindow dayStart microsPerDay microsPerSec
    decide
  · decide

/-- C3 (amended): the orders fetch keeps exactly the fetched records whose
parsed creation timestamp lies in
`[ordersStartBound start, ordersEndBound end]`, where both bounds keep the
caller's microsecond fields; records with a missing or unparseable creation
date are dropped.  When the caller's end datetime carries microsecond field
999999 the upper bound coincides with the spec's 23:59:59.999999; for a
midnight (date-only) end datetime it is 23:59:59.000000. -/
theorem claim_C3_creation_window_filter (raw : List OrderRecord) (s e : ℕ) :
    (∀ r ∈ getWbOrdersFilter raw s e, ∀ d, r.date = some d →
        ordersStartBound s ≤ d ∧ d ≤ ordersEndBound e)
    ∧ (∀ r ∈ getWbOrdersFilter raw s e, r.date ≠ none)
    ∧ (∀ r ∈ raw, ∀ d, r.date = some d →
        ordersStartBound s ≤ d → d ≤ ordersEndBound e →
        r ∈ getWbOrdersFilter raw s e)
    ∧ (microField e = 999999 →
        ordersEndBound e = dayStart e + 86399 * microsPerSec + 999999)
    ∧ (microField e = 0 →
        ordersEndBound e = dayStart e + 86399 * microsPerSec) := by
  refine ⟨?_, ?_, ?_, ?_, ?_⟩
  · intro r hr d hd
    rw [getWbOrdersFilter, List.mem_filter] at hr
    have hp := hr.2
    rw [isWithinDateRange, hd] at hp
    exact of_decide_eq_true hp
  · intro r hr hn
    rw [getWbOrdersFilter, List.mem_filter] at hr
    have hp := hr.2
    rw [isWithinDateRange, hn] at hp
    exact Bool.false_ne_true hp
  · intro r hr d hd h1 h2
    rw [getWbOrdersFilter, List.mem_filter]
    refine ⟨hr, ?_⟩
    rw [isWithinDateRange, hd]
    exact decide_eq_true ⟨h1, h2⟩
  · intro h
    unfold microField microsPerSec at h
    unfold ordersEndBound replaceHMS microField microsPerSec
    omega
  · intro h
    unfold microField microsPerSec at h
    unfold ordersEndBound replaceHMS microField microsPerSec
    omega

/-- Witness for C3 (amended): a concrete in-bounds record is kept by the
filter. -/
theorem claim_C3_creation_window_filter_witness :
    (⟨some 1000, some 0, some 1⟩ : OrderRecord)
      ∈ getWbOrdersFilter [⟨some 1000, some 0, some 1⟩] 0 0 := by
  have h := (claim_C3_creation_window_filter [⟨some 1000, some 0, some 1⟩] 0 0).2.2.1
  exact h _ (by decide) 1000 rfl (by decide) (by decide)

/-- C4 counterexample: on a detail row whose document type contains both
the sale and the return substring (`возврат продажа`), the per-day ledger
feeds both the sales and the returns totals (its two tests are
independent), and the per-product ledger feeds the sales totals and not
the returns totals (its `elif` gives the sale branch precedence) — in
neither aggregator does the return-containing type feed only the returns
totals. -/
theorem claim_C4_counterexample :
    (aggDaily "2024-01-05" [] [c4BothRow]).sales_before_spp = 100
    ∧ (aggDaily "2024-01-05" [] [c4BothRow]).returns = 100
    ∧ (aggUnit 10 [] [c4BothRow]).sales_rub = 100
    ∧ (aggUnit 10 [] [c4BothRow]).returns_rub = 0 := by
  refine ⟨?_, ?_, ?_, ?_⟩ <;>
    simp +decide [aggDaily, aggUnit, dailyDetailContrib, detailContrib,
      DailyMetrics.add, DailyMetrics.zero, UnitMetrics.add, UnitMetrics.zero,
      natKeyFalsy, c4BothRow]

/-- C4 (amended): a detail row whose lowercased document type contains
`возврат` and does not contain `продажа` feeds the returns totals and never
the sales totals, in both aggregators; in the per-product aggregator the
two categories are mutually exclusive because the sale test takes
precedence — a sale-containing type never feeds returns, and a type without
the sale substring never feeds sales. -/
theorem claim_C4_return_vs_sale_totals :
    (∀ k r, r.nm_id = some k → k ≠ 0 →
      containsSub (pyLower r.doc_type_name) "возврат" = true →
      containsSub (pyLower r.doc_type_name) "продажа" = false →
      (detailContrib k r).returns_rub = r.retail_amount
      ∧ (detailContrib k r).returns_pcs = r.quantity
      ∧ (detailContrib k r).sales_rub = 0
      ∧ (detailContrib k r).sales_pcs = 0)
    ∧ (∀ k r, containsSub (pyLower r.doc_type_name) "продажа" = true →
      (detailContrib k r).returns_rub = 0 ∧ (detailContrib k r).returns_pcs = 0)
    ∧ (∀ k r, containsSub (pyLower r.doc_type_name) "продажа" = false →
      (detailContrib k r).sales_rub = 0 ∧ (detailContrib k r).sales_pcs = 0)
    ∧ (∀ day r, r.rr_dt.take 10 = day → day ≠ "" →
      containsSub (pyLower r.doc_type_name) "возврат" = true →
      containsSub (pyLower r.doc_type_name) "продажа" = false →
      (dailyDetailContrib day r).returns = r.retail_amount * r.quantity
      ∧ (dailyDetailContrib day r).sales_quantity = 0
      ∧ (dailyDetailContrib day r).sales_before_spp = 0) := by
  refine ⟨?_, ?_, ?_, ?_⟩
  · intro k r hk hk0 hret hsale
    simp [detailContrib, natKeyFalsy, hk, hk0, hret, hsale]
  · intro k r hsale
    unfold detailContrib
    split_ifs <;> simp [UnitMetrics.zero, hsale]
  · intro k r hsale
    unfold detailContrib
    split_ifs <;> simp [UnitMetrics.zero, hsale]
  · intro day r hd hday hret hsale
    subst hd
    simp [dailyDetailContrib, hday, hret, hsale]

/-- Witness for C4 (amended): the warranty-return row `Возврат по гарантии`
feeds the returns totals and not the sales totals. -/
theorem claim_C4_return_vs_sale_totals_witness :
    (detailContrib 10 c4ReturnRow).returns_rub = 100
    ∧ (detailContrib 10 c4ReturnRow).sales_rub = 0 := by
  have h := claim_C4_return_vs_sale_totals.1 10 c4ReturnRow rfl
    (by decide) (by decide) (by decide)
  exact ⟨h.1, h.2.2.1⟩

/-- Accumulated `orders_pcs` never receives a detail-row contribution. -/
theorem detailContrib_orders_pcs (k : ℕ) (r : DetailRow) :
    (detailContrib k r).orders_pcs = 0 := by
  unfold detailContrib
  split_ifs <;> rfl

/-- Accumulated `orders_pcs` order contributions are nonnegative. -/
theorem orderContrib_orders_pcs_nonneg (k : ℕ) (o : OrderEvent) :
    0 ≤ (orderContrib k o).orders_pcs := by
  unfold orderContrib
  split_ifs <;> norm_num [UnitMetrics.zero]

/-- The per-product order count is a sum of `0`/`1` contributions, hence
nonnegative. -/
theorem aggUnit_orders_pcs_nonneg (k : ℕ) (os : List OrderEvent)
    (ds : List DetailRow) : 0 ≤ (aggUnit k os ds).orders_pcs := by
  have hds : ∀ (init : UnitMetrics) (l : List DetailRow),
      (l.foldl (fun acc r => acc.add (detailContrib k r)) init).orders_pcs
        = init.orders_pcs := by
    intro init l
    induction l generalizing init with
    | nil => rfl
    | cons r rest ih =>
      rw [List.foldl_cons, ih]
      show init.orders_pcs + (detailContrib k r).orders_pcs = init.orders_pcs
      rw [detailContrib_orders_pcs, add_zero]
  have hos : ∀ (init : UnitMetrics) (l : List OrderEvent),
      0 ≤ init.orders_pcs →
      0 ≤ (l.foldl (fun acc o => acc.add (orderContrib k o)) init).orders_pcs := by
    intro init l
    induction l generalizing init with
    | nil => intro h; exact h
    | cons o rest ih =>
      intro h
      rw [List.foldl_cons]
      refine ih _ ?_
      show 0 ≤ init.orders_pcs + (orderContrib k o).orders_pcs
      have := orderContrib_orders_pcs_nonneg k o
      linarith
  rw [aggUnit, hds]
  exact hos _ _ (le_refl 0)

/-- C5 counterexample: with one `продажа` row of retail amount −100 the
accumulated sales total is −100 (a nonzero denominator), yet the derived
ad-spend ratio is 0, not the exact quotient 50 / (−100): the guard tests
`> 0`, not `≠ 0`. -/
theorem claim_C5_counterexample :
    (aggUnit 10 [] [c5NegRow]).sales_rub = -100
    ∧ drrPercent 50 (aggUnit 10 [] [c5NegRow]) = 0
    ∧ (50 : ℚ) / (aggUnit 10 [] [c5NegRow]).sales_rub ≠ 0 := by
  have hs : (aggUnit 10 [] [c5NegRow]).sales_rub = -100 := by
    simp +decide [aggUnit, detailContrib, UnitMetrics.add, UnitMetrics.zero,
      natKeyFalsy, c5NegRow]
  refine ⟨hs, ?_, ?_⟩
  · rw [drrPercent, hs]
    norm_num
  · rw [hs]
    norm_num

/-- C5 (amended): the derived ratios are 0 when their denominator is not
positive and equal the exact quotient when it is positive; for the buyout
ratio the denominator is an accumulated order count, which is nonnegative,
so there zero and non-positive coincide and the claim's zero/quotient
dichotomy holds exactly. -/
theorem claim_C5_ratio_guards :
    (∀ (m : UnitMetrics) (ad : ℚ), m.sales_rub ≤ 0 → drrPercent ad m = 0)
    ∧ (∀ (m : UnitMetrics) (ad : ℚ), 0 < m.sales_rub →
        drrPercent ad m = ad / m.sales_rub)
    ∧ (∀ m : UnitMetrics, m.orders_pcs = 0 → buyoutPercent m = 0)
    ∧ (∀ (k : ℕ) (os : List OrderEvent) (ds : List DetailRow),
        (aggUnit k os ds).orders_pcs ≠ 0 →
        buyoutPercent (aggUnit k os ds)
          = (aggUnit k os ds).sales_pcs / (aggUnit k os ds).orders_pcs) := by
  refine ⟨?_, ?_, ?_, ?_⟩
  · intro m ad h
    rw [drrPercent, if_neg (by linarith)]
  · intro m ad h
    rw [drrPercent, if_pos h]
  · intro m h
    rw [buyoutPercent, h]
    norm_num
  · intro k os ds h
    have h0 := aggUnit_orders_pcs_nonneg k os ds
    rw [buyoutPercent, if_pos (lt_of_le_of_ne h0 (Ne.symm h))]

/-- Witness for C5 (amended): sales-quantity 1 over orders-quantity 2 gives
buyout ½, and a zero sales total gives ad-spend ratio 0. -/
theorem claim_C5_ratio_guards_witness :
    buyoutPercent (aggUnit 10 [c1Order, c1Order] [c1Sale]) = 1 / 2
    ∧ drrPercent 50 (aggUnit 10 [] []) = 0 := by
  have h2 : (aggUnit 10 [c1Order, c1Order] [c1Sale]).orders_pcs = 2 := by
    simp +decide [aggUnit, orderContrib, detailContrib, UnitMetrics.add,
      UnitMetrics.zero, natKeyFalsy, c1Order, c1Sale]
    norm_num
  have h1 : (aggUnit 10 [c1Order, c1Order] [c1Sale]).sales_pcs = 1 := by
    simp +decide [aggUnit, orderContrib, detailContrib, UnitMetrics.add,
      UnitMetrics.zero, natKeyFalsy, c1Order, c1Sale]
  have hz : (aggUnit 10 [] []).sales_rub = 0 := by
    simp [aggUnit, UnitMetrics.zero]
  constructor
  · have h := claim_C5_ratio_guards.2.2.2 10 [c1Order, c1Order] [c1Sale]
      (by rw [h2]; norm_num)
    rw [h, h1, h2]
  · exact claim_C5_ratio_guards.1 _ 50 (le_of_eq hz)

/-- Paid-storage polling: a first meaningful status of `error` yields the
failure sentinel. -/
theorem storagePollLoop_error (download : Option (List StorageChargeRow))
    (rest : List (Option String)) :
    storagePollLoop download (some "error" :: rest) = none := by
  simp [storagePollLoop]

/-- Paid-storage polling: if `done` is never reported, the loop times out
with the failure sentinel. -/
theorem storagePollLoop_no_done (l : List (Option String))
    (download : Option (List StorageChargeRow))
    (h : ∀ p ∈ l, p ≠ some "done") : storagePollLoop download l = none := by
  induction l with
  | nil => rfl
  | cons p rest ih =>
    cases p with
    | none =>
      simp only [storagePollLoop]
      exact ih (fun q hq => h q (List.mem_cons_of_mem _ hq))
    | some s =>
      have hs : s ≠ "done" := by
        intro hs
        exact (h (some s) (List.mem_cons_self _ _)) (by rw [hs])
      by_cases ht : s = "error" ∨ s = "canceled" ∨ s = "purged"
      · simp [storagePollLoop, hs, ht]
      · simp only [storagePollLoop, if_neg hs, if_neg ht]
        exact ih (fun q hq => h q (List.mem_cons_of_mem _ hq))

/-- Paid-storage polling: a failed download yields the failure sentinel on
every status sequence. -/
theorem storagePollLoop_none_download (l : List (Option String)) :
    storagePollLoop none l = none := by
  induction l with
  | nil => rfl
  | cons p rest ih =>
    cases p with
    | none => simpa only [storagePollLoop] using ih
    | some s =>
      simp only [storagePollLoop]
      split_ifs <;> first | rfl | exact ih

/-- Acceptance polling: a first meaningful status of `error` returns the
empty list. -/
theorem acceptancePollLoop_error (download : Option (List AcceptanceRow))
    (sD eD : ℕ) (rest : List (Option String)) :
    acceptancePollLoop download sD eD (some "error" :: rest) = [] := by
  simp [acceptancePollLoop]

/-- Acceptance polling: if `done` is never reported, the timeout branch
returns the empty list. -/
theorem acceptancePollLoop_no_done (l : List (Option String))
    (download : Option (List AcceptanceRow)) (sD eD : ℕ)
    (h : ∀ p ∈ l, p ≠ some "done") :
    acceptancePollLoop download sD eD l = [] := by
  induction l with
  | nil => rfl
  | cons p rest ih =>
    cases p with
    | none =>
      simp only [acceptancePollLoop]
      exact ih (fun q hq => h q (List.mem_cons_of_mem _ hq))
    | some s =>
      have hs : s ≠ "done" := by
        intro hs
        exact (h (some s) (List.mem_cons_self _ _)) (by rw [hs])
      by_cases ht : s = "error"
      · simp [acceptancePollLoop, hs, ht]
      · simp only [acceptancePollLoop, if_neg hs, if_neg ht]
        exact ih (fun q hq => h q (List.mem_cons_of_mem _ hq))

/-- Acceptance polling: a failed download returns the empty list on every
status sequence. -/
theorem acceptancePollLoop_none_download (l : List (Option String))
    (sD eD : ℕ) : acceptancePollLoop none sD eD l = [] := by
  induction l with
  | nil => rfl
  | cons p rest ih =>
    cases p with
    | none => simpa only [acceptancePollLoop] using ih
    | some s =>
      simp only [acceptancePollLoop]
      split_ifs <;> first | rfl | exact ih

/-- Chunked range fetch: a failed sub-window aborts the whole range. -/
theorem chunkedFetch_abort {α : Type} (step : ℕ)
    (fetch : ℕ → ℕ → Option (List α)) :
    ∀ (n s e a b : ℕ), e + 1 - s ≤ n →
      (a, b) ∈ chunkList step s e → fetch a b = none →
      chunkedFetch step fetch s e = none := by
  intro n
  induction n with
  | zero =>
    intro s e a b hn hmem hf
    have hse : ¬ s ≤ e := by omega
    rw [chunkList.eq_def, if_neg hse] at hmem
    simp at hmem
  | succ n ih =>
    intro s e a b hn hmem hf
    by_cases hse : s ≤ e
    · have hm1 : s ≤ min e (s + step) := le_min hse (by omega)
      rw [chunkList.eq_def, if_pos hse] at hmem
      rw [chunkedFetch.eq_def, if_pos hse]
      rcases List.mem_cons.mp hmem with heq | htail
      · injection heq with ha hb
        subst ha
        subst hb
        rw [hf]
      · cases hfetch : fetch s (min e (s + step)) with
        | none => rfl
        | some rows =>
          rw [ih (min e (s + step) + 1) e a b (by omega) htail hf]
          rfl
    · have hse' : ¬ s ≤ e := hse
      rw [chunkList.eq_def, if_neg hse'] at hmem
      simp at hmem

/-- C6 counterexample: an acceptance-report job that reports status `error`
returns the plain empty list — exactly what a successfully completed job
with an empty artifact returns — so the fetch does not return a
fatal-failure sentinel distinguishable from an empty record list. -/
theorem claim_C6_counterexample :
    getWbAcceptanceReport c6ErrorEnv 0 10 = []
    ∧ getWbAcceptanceReport c6EmptyDoneEnv 0 10 = [] := by
  exact ⟨by decide, by decide⟩

/-- C6 (amended): for the paid-storage chunk, a job error, a missed `done`
within the 60-poll (300-second) ceiling, or a failed download each yield
the failure sentinel `none`, distinguishable from `some []`, and a failed
sub-window makes the whole chunked range fetch return `none`; the
acceptance-report fetch instead returns the plain empty list on the same
three failure paths, indistinguishable from a successful empty report. -/
theorem claim_C6_async_job_failures :
    (∀ (download : Option (List StorageChargeRow)) (rest : List (Option String)),
      storagePollLoop download (some "error" :: rest) = none)
    ∧ (∀ env : StorageChunkEnv,
      (∀ p ∈ env.polls.take 60, p ≠ some "done") →
      getSinglePaidStorageChunk env = none)
    ∧ (∀ env : StorageChunkEnv, env.download = none →
      getSinglePaidStorageChunk env = none)
    ∧ (∀ (step : ℕ) (fetch : ℕ → ℕ → Option (List StorageChargeRow)) (s e a b : ℕ),
      (a, b) ∈ chunkList step s e → fetch a b = none →
      chunkedFetch step fetch s e = none)
    ∧ (∀ (download : Option (List AcceptanceRow)) (sD eD : ℕ)
        (rest : List (Option String)),
      acceptancePollLoop download sD eD (some "error" :: rest) = [])
    ∧ (∀ (env : AcceptanceEnv) (sD eD : ℕ),
      (∀ p ∈ env.polls.take 60, p ≠ some "done") →
      getWbAcceptanceReport env sD eD = [])
    ∧ (∀ (env : AcceptanceEnv) (sD eD : ℕ), env.download = none →
      getWbAcceptanceReport env sD eD = []) := by
  refine ⟨storagePollLoop_error, ?_, ?_, ?_, acceptancePollLoop_error, ?_, ?_⟩
  · intro env h
    unfold getSinglePaidStorageChunk
    split_ifs
    · rfl
    · cases htask : env.createTaskId with
      | none => rfl
      | some t => exact storagePollLoop_no_done _ _ h
  · intro env h
    unfold getSinglePaidStorageChunk
    split_ifs
    · rfl
    · cases htask : env.createTaskId with
      | none => rfl
      | some t =>
        rw [h]
        exact storagePollLoop_none_download _
  · intro step fetch s e a b hmem hf
    exact chunkedFetch_abort step fetch (e + 1 - s) s e a b (le_refl _) hmem hf
  · intro env sD eD h
    unfold getWbAcceptanceReport
    split_ifs
    · rfl
    · cases htask : env.createTaskId with
      | none => rfl
      | some t => exact acceptancePollLoop_no_done _ _ _ _ h
  · intro env sD eD h
    unfold getWbAcceptanceReport
    split_ifs
    · rfl
    · cases htask : env.createTaskId with
      | none => rfl
      | some t =>
        rw [h]
        exact acceptancePollLoop_none_download _ _ _

/-- Witness for C6 (amended): a concrete paid-storage environment that
times out (no `done` within the ceiling) yields the sentinel `none`, and a
concrete failed sub-window aborts a concrete range fetch. -/
theorem claim_C6_async_job_failures_witness :
    getSinglePaidStorageChunk ⟨200, some "task-1", [some "in_progress"], some []⟩ = none
    ∧ chunkedFetch 7 (fun _ _ => (none : Option (List StorageChargeRow))) 0 20 = none := by
  constructor
  · exact claim_C6_async_job_failures.2.1 ⟨200, some "task-1", [some "in_progress"], some []⟩
      (by decide)
  · have h1 : chunkList 7 0 20 = (0, 7) :: chunkList 7 8 20 := by
      rw [chunkList.eq_def]
      norm_num
    exact claim_C6_async_job_failures.2.2.2.1 7 (fun _ _ => none) 0 20 0 7
      (h1 ▸ List.mem_cons_self _ _) rfl

/-- C7: a failed detail-report or orders fetch makes the whole report fail
(`none`), while a failed paid-storage fetch or an advertising pipeline
whose campaign resolution failed (empty relevant-campaign set, the value
the pipeline produces on a hard discovery failure) degrade to an empty
contribution from that source with the report still produced. -/
theorem claim_C7_orchestrator_failure_policy :
    (∀ (od : Option (List OrderEvent)) (sd : Option (List StorageChargeRow))
        (adF : List ℕ → List ((String × Nat) × ℚ)),
        fillPnlReport none od sd adF = none)
    ∧ (∀ (rd : Option (List DetailRow)) (sd : Option (List StorageChargeRow))
        (adF : List ℕ → List ((String × Nat) × ℚ)),
        fillPnlReport rd none sd adF = none)
    ∧ (∀ (rd : List DetailRow) (od : List OrderEvent)
        (adF : List ℕ → List ((String × Nat) × ℚ)),
        fillPnlReport (some rd) (some od) none adF
          = some ⟨rd, od, adF (targetNmIds (some od)), []⟩)
    ∧ (∀ (rd : List DetailRow) (od : List OrderEvent)
        (sd : Option (List StorageChargeRow)) (stats : List CampaignStat),
        fillPnlReport (some rd) (some od) sd
            (fun ids => (getAggregatedAdCosts ids ⟨[], stats⟩).1)
          = some ⟨rd, od, [], storageCostsAgg sd⟩) := by
  have hads : ∀ (ids : List ℕ) (stats : List CampaignStat),
      (getAggregatedAdCosts ids ⟨[], stats⟩).1 = [] := by
    intro ids stats
    unfold getAggregatedAdCosts
    by_cases h : ids.isEmpty <;> simp [h]
  refine ⟨?_, ?_, ?_, ?_⟩
  · intro od sd adF
    cases od <;> rfl
  · intro rd sd adF
    cases rd <;> rfl
  · intro rd od adF
    rfl
  · intro rd od sd stats
    simp [fillPnlReport, hads]

/-- Advertising request helper: every non-429 4xx response fails
immediately, without retry. -/
theorem makeAdvertRequest_clientError (r : HttpResp)
    (rest : List (Option HttpResp)) (h1 : 400 ≤ r.status)
    (h2 : r.status < 500) (h3 : r.status ≠ 429) :
    makeAdvertRequest (some r :: rest) = none := by
  have hp : ¬ (r.status = 200 ∨ r.status = 204) := by omega
  have hq : ¬ (r.status = 429 ∨ 500 ≤ r.status) := by omega
  simp [makeAdvertRequest, hp, hq]

/-- C8 counterexample: a batch whose request answers 403 is handled exactly
like a batch whose request answers 400 `no statistics`: both are skipped
and the statistics fetch continues, completing normally with the other
batch's rows — a non-`no-statistics` 4xx is not a hard failure for the
fetch. -/
theorem claim_C8_counterexample :
    getFullstatsData [[some c8Resp403], [some c8RespOk]] = [⟨[]⟩]
    ∧ getFullstatsData [[some c8Resp400], [some c8RespOk]] = [⟨[]⟩]
    ∧ getFullstatsData [[some c8Resp403], [some c8RespOk]]
        = getFullstatsData [[some c8Resp400], [some c8RespOk]] := by
  exact ⟨by decide, by decide, by decide⟩

/-- C8 (amended): `_make_advert_request` turns every non-429 4xx response —
the `no statistics` 400 included — into the request-failure sentinel
without retrying, so the dedicated 400 branch of `_get_fullstats_data` is
unreachable; a failed batch contributes no rows and the statistics loop
continues, for the benign 400 and for every other 4xx alike — no 4xx
aborts the fetch. -/
theorem claim_C8_fourxx_batches :
    (∀ (r : HttpResp) (rest : List (Option HttpResp)),
      400 ≤ r.status → r.status < 500 → r.status ≠ 429 →
      makeAdvertRequest (some r :: rest) = none)
    ∧ (∀ acc : List CampaignStat, processFullstatsBatch acc none = acc)
    ∧ (∀ (pre post : List (List (Option HttpResp)))
        (r : HttpResp) (tail : List (Option HttpResp)),
        400 ≤ r.status → r.status < 500 → r.status ≠ 429 →
        getFullstatsData (pre ++ (some r :: tail) :: post)
          = getFullstatsData (pre ++ post)) := by
  refine ⟨makeAdvertRequest_clientError, fun acc => rfl, ?_⟩
  intro pre post r tail h1 h2 h3
  unfold getFullstatsData
  rw [List.foldl_append, List.foldl_append, List.foldl_cons]
  congr 1
  have hreq : makeAdvertRequest ((some r :: tail).take 3) = none := by
    rw [show (some r :: tail).take 3 = some r :: tail.take 2 from rfl]
    exact makeAdvertRequest_clientError r _ h1 h2 h3
  rw [hreq]
  rfl

/-- Witness for C8 (amended): dropping a concrete 403 batch leaves the
concrete fetch result unchanged. -/
theorem claim_C8_fourxx_batches_witness :
    getFullstatsData [[some c8Resp403], [some c8RespOk]]
      = getFullstatsData [[some c8RespOk]] := by
  have h := claim_C8_fourxx_batches.2.2 [] [[some c8RespOk]] c8Resp403 []
    (by decide) (by decide) (by decide)
  simpa using h

/-- Chunk boundaries of the Chunked Range Fetcher cover the day range
exactly, in order. -/
theorem chunkList_cover (step : ℕ) :
    ∀ (n s e : ℕ), e + 1 - s ≤ n →
      (chunkList step s e).flatMap (fun c => List.range' c.1 (c.2 + 1 - c.1))
        = List.range' s (e + 1 - s) := by
  intro n
  induction n with
  | zero =>
    intro s e h
    have hse : ¬ s ≤ e := by omega
    have h0 : e + 1 - s = 0 := by omega
    rw [chunkList.eq_def, if_neg hse, h0]
    rfl
  | succ n ih =>
    intro s e h
    by_cases hse : s ≤ e
    · have hm1 : s ≤ min e (s + step) := le_min hse (by omega)
      have hm2 : min e (s + step) ≤ e := min_le_left _ _
      rw [chunkList.eq_def, if_pos hse, List.flatMap_cons]
      rw [ih (min e (s + step) + 1) e (by omega)]
      have key := List.range'_append_1 s (min e (s + step) + 1 - s)
        (e + 1 - (min e (s + step) + 1))
      have hstart : s + (min e (s + step) + 1 - s) = min e (s + step) + 1 := by
        omega
      rw [hstart] at key
      rw [key]
      congr 1
      omega
    · have h0 : e + 1 - s = 0 := by omega
      rw [chunkList.eq_def, if_neg hse, h0]
      rfl

/-- A chunked fetch whose every sub-window succeeds returns the
concatenation of the per-chunk results. -/
theorem chunkedFetch_total {α : Type} (step : ℕ) (wr : ℕ → ℕ → List α) :
    ∀ (n s e : ℕ), e + 1 - s ≤ n →
      chunkedFetch step (fun a b => some (wr a b)) s e
        = some ((chunkList step s e).flatMap (fun c => wr c.1 c.2)) := by
  intro n
  induction n with
  | zero =>
    intro s e h
    have hse : ¬ s ≤ e := by omega
    rw [chunkedFetch.eq_def, if_neg hse, chunkList.eq_def, if_neg hse]
    rfl
  | succ n ih =>
    intro s e h
    by_cases hse : s ≤ e
    · have hm1 : s ≤ min e (s + step) := le_min hse (by omega)
      rw [chunkedFetch.eq_def, if_pos hse, chunkList.eq_def, if_pos hse]
      dsimp only
      rw [ih (min e (s + step) + 1) e (by omega), List.flatMap_cons]
      rfl
    · rw [chunkedFetch.eq_def, if_neg hse, chunkList.eq_def, if_neg hse]
      rfl

/-- C9: for every day range, the sub-windows of the detail-report fetch
(7 days) and of the paid-storage fetch (8 days) cover the range exactly
once and in order, and the chunked fetch over a per-day feed returns
exactly what the single unchunked fetch over the whole range would — for
ranges divisible by the chunk size or not. -/
theorem claim_C9_chunked_equals_unchunked
    (feedD : ℕ → List DetailRow) (feedS : ℕ → List StorageChargeRow)
    (s e : ℕ) :
    ((chunkList 6 s e).flatMap (fun c => List.range' c.1 (c.2 + 1 - c.1))
        = List.range' s (e + 1 - s))
    ∧ ((chunkList 7 s e).flatMap (fun c => List.range' c.1 (c.2 + 1 - c.1))
        = List.range' s (e + 1 - s))
    ∧ getWbWeeklyReport (fun a b => some (windowRecords feedD a b)) s e
        = some (windowRecords feedD s e)
    ∧ getWbPaidStorageReport (fun a b => some (windowRecords feedS a b)) s e
        = some (windowRecords feedS s e) := by
  have main : ∀ {α : Type} (step : ℕ) (feed : ℕ → List α),
      chunkedFetch step (fun a b => some (windowRecords feed a b)) s e
        = some (windowRecords feed s e) := by
    intro α step feed
    rw [chunkedFetch_total step (fun a b => windowRecords feed a b)
      (e + 1 - s) s e (le_refl _)]
    unfold windowRecords
    rw [← List.flatMap_assoc, chunkList_cover step (e + 1 - s) s e (le_refl _)]
  exact ⟨chunkList_cover 6 (e + 1 - s) s e (le_refl _),
    chunkList_cover 7 (e + 1 - s) s e (le_refl _),
    main 6 feedD, main 7 feedS⟩

/-- Keys present after one `upsert` come from the original dict or are the
inserted key. -/
theorem mem_keys_upsert {K : Type} [DecidableEq K] (k : K) (v : ℚ)
    (l : List (K × ℚ)) (k' : K)
    (h : k' ∈ (upsert k v l).map Prod.fst) :
    k' ∈ l.map Prod.fst ∨ k' = k := by
  induction l with
  | nil =>
    simp [upsert] at h
    simp [h]
  | cons head rest ih =>
    obtain ⟨a, w⟩ := head
    by_cases hak : a = k
    · simp only [upsert, if_pos hak, List.map_cons] at h
      exact Or.inl h
    · simp only [upsert, if_neg hak, List.map_cons, List.mem_cons] at h
      rcases h with h | h
      · exact Or.inl (by simp [h])
      · rcases ih h with h2 | h2
        · exact Or.inl (by simp only [List.map_cons, List.mem_cons]; exact Or.inr h2)
        · exact Or.inr h2

/-- Keys present after folding `upsert` over a contribution stream come
from the initial dict or from the stream. -/
theorem mem_keys_upsertFold (rows : List ((String × ℕ) × ℚ)) :
    ∀ (init : List ((String × ℕ) × ℚ)) (k : String × ℕ),
      k ∈ ((rows.foldl (fun acc kv => upsert kv.1 kv.2 acc) init).map Prod.fst) →
      k ∈ init.map Prod.fst ∨ k ∈ rows.map Prod.fst := by
  induction rows with
  | nil =>
    intro init k h
    exact Or.inl h
  | cons kv rest ih =>
    intro init k h
    rw [List.foldl_cons] at h
    rcases ih _ _ h with h2 | h2
    · rcases mem_keys_upsert _ _ _ _ h2 with h3 | h3
      · exact Or.inl h3
      · right
        simp [h3]
    · right
      simp only [List.map_cons, List.mem_cons]
      exact Or.inr h2

/-- Every flattened advertising-spend contribution key carries a product id
from the caller's target set. -/
theorem adContribs_keys (targets : List ℕ) (stats : List CampaignStat)
    (k : String × ℕ) (h : k ∈ (adContribs targets stats).map Prod.fst) :
    k.2 ∈ targets := by
  rw [List.mem_map] at h
  obtain ⟨kv, hkv, hfst⟩ := h
  simp only [adContribs, List.mem_flatMap] at hkv
  obtain ⟨c, _, d, _, hrest⟩ := hkv
  by_cases hdate : d.date = ""
  · rw [if_pos hdate] at hrest
    simp at hrest
  · rw [if_neg hdate] at hrest
    simp only [List.mem_flatMap] at hrest
    obtain ⟨a, _, nm, _, hkv2⟩ := hrest
    cases hnn : nm.nmId with
    | none =>
      rw [hnn] at hkv2
      dsimp only at hkv2
      simp at hkv2
    | some i =>
      rw [hnn] at hkv2
      dsimp only at hkv2
      by_cases hit : i = 0 ∨ i ∉ targets
      · rw [if_pos hit] at hkv2
        simp at hkv2
      · rw [if_neg hit] at hkv2
        push_neg at hit
        simp at hkv2
        rw [← hfst, hkv2]
        exact hit.2

/-- C10: the advertising-spend entry point returns the empty mapping and
performs no fetch stage at all when the target product-id set is empty,
and every key of its result carries a product id from the caller's target
set. -/
theorem claim_C10_ad_costs_scope :
    (∀ env : AdvertEnv, getAggregatedAdCosts [] env = ([], []))
    ∧ (∀ (targets : List ℕ) (env : AdvertEnv) (k : String × ℕ),
        k ∈ (getAggregatedAdCosts targets env).1.map Prod.fst →
        k.2 ∈ targets) := by
  constructor
  · intro env
    rfl
  · intro targets env k h
    unfold getAggregatedAdCosts at h
    split_ifs at h
    · simp at h
    · simp at h
    · simp at h
    · rw [parseAdStats, adCostsAccum] at h
      rcases mem_keys_upsertFold _ _ _ h with h2 | h2
      · simp at h2
      · exact adContribs_keys _ _ _ h2

/-- Witness for C10: on a concrete environment with one in-target spend
entry, the result's key carries the target product id. -/
theorem claim_C10_ad_costs_scope_witness :
    (("2024-01-05", 10) : String × ℕ).2 ∈ ([10] : List ℕ) := by
  exact claim_C10_ad_costs_scope.2 [10] ⟨[1], [⟨[⟨"2024-01-05T00:00:00Z",
    [⟨[⟨some 10, 5⟩]⟩]⟩]⟩]⟩ ("2024-01-05", 10) (by decide)

end WbApi
